import Mathlib

/-!
Shallow embedding of the episode catalog and feed synchronization subsystem
of `src/publish_episode.py` (the publish orchestrator, key naming, retention,
feed renderer and shared-asset creation), together with proofs about it.

Python strings are modelled as Lean `String`/`List Char`; Python `list.sort`
(a stable sort) is modelled by a stable insertion sort with the same
comparator (stable sorts with the same key are extensionally equal);
Python slice indexing `l[:n]` / `l[n:]`, including negative `n`, is
modelled by `pyTake` / `pyDrop`; the remote object store is modelled by a
key-existence oracle plus explicit upload/delete logs; the eviction loop's
possible `delete_object` exceptions are modelled by a `fails` oracle.
-/

namespace Podcast

/-! ## Character classes (ASCII fragment of Python `str.strip`, `\w`, `\s`) -/

/-- Python whitespace characters recognised by `str.strip()` and regex `\s`
(ASCII fragment; the titles handled by the pipeline are ASCII). -/
def pyIsSpace (c : Char) : Bool :=
  c = ' ' || c = '\t' || c = '\n' || c = '\x0d' || c = '\x0b' || c = '\x0c'

/-- Regex `\w` (ASCII fragment): letters, digits, underscore. -/
def isWordChar (c : Char) : Bool :=
  c.isAlphanum || c = '_'

/-- The character class `[\s_-]` of `slugify`'s second substitution. -/
def isRunChar (c : Char) : Bool :=
  pyIsSpace c || c = '_' || c = '-'

/-! ## slugify (publish_episode.py lines 98-108) -/

/-- `str.lstrip` for a character predicate. -/
def lstripBy (p : Char → Bool) : List Char → List Char :=
  List.dropWhile p

/-- `str.rstrip` for a character predicate: drop the maximal trailing run
satisfying `p`. -/
def rstripBy (p : Char → Bool) : List Char → List Char
  | [] => []
  | c :: cs =>
    match rstripBy p cs with
    | [] => if p c then [] else [c]
    | d :: ds => c :: d :: ds

/-- `re.sub(r"[\s_-]+", "-", s)`: replace each maximal run of characters in
`[\s_-]` by a single hyphen. -/
def collapseRuns : List Char → List Char
  | [] => []
  | c :: cs =>
    let r := collapseRuns cs
    if isRunChar c then
      match r with
      | '-' :: _ => r
      | _ => '-' :: r
    else c :: r

/-- `s.strip("-")`. -/
def stripHyph (l : List Char) : List Char :=
  rstripBy (fun c => c = '-') (lstripBy (fun c => c = '-') l)

/-- The first four steps of `slugify` on the character list:
`s.strip().lower()`, `re.sub(r"[^\w\s-]", "", s)`, `re.sub(r"[\s_-]+", "-", s)`,
`s.strip("-")`. -/
def slugStripped (s : List Char) : List Char :=
  stripHyph
    (collapseRuns
      (((rstripBy pyIsSpace (lstripBy pyIsSpace s)).map Char.toLower).filter
        (fun c => isWordChar c || pyIsSpace c || c = '-')))

/-- The body of `slugify` up to the final `or "episode"` fallback:
`slugStripped`, then `if len(s) > max_len: s = s[:max_len].rstrip("-")`. -/
def slugCore (maxLen : Nat) (s : List Char) : List Char :=
  if (slugStripped s).length > maxLen then
    rstripBy (fun c => c = '-') ((slugStripped s).take maxLen)
  else slugStripped s

/-- `slugify(s, max_len=120)` from publish_episode.py. -/
def slugify (s : String) : String :=
  if slugCore 120 s.data = [] then "episode" else String.mk (slugCore 120 s.data)

/-! ## Episode records (the JSON schema of data/episodes.json) -/

/-- One record of `data/episodes.json` as written by `main` (step 7). -/
structure Rec where
  guid : String
  title : String
  description : String
  pubdate_iso : String
  mp3_key : String
  mp3_length_bytes : Nat
  episode_page_key : String
deriving DecidableEq, Repr

/-! ## `items.sort(key=lambda x: x["pubdate_iso"], reverse=True)` (line 320)

Python compares strings lexicographically by code point; `strLtB` models
that comparison.  Python's sort is stable; with `reverse=True` ties still
keep their original relative order.  A stable sort is extensionally
determined by its comparator, so we model it by the canonical stable
insertion sort for the descending string order on `pubdate_iso`. -/

/-- Python `<` on strings: lexicographic by code point. -/
def strLtB : List Char → List Char → Bool
  | [], [] => false
  | [], _ :: _ => true
  | _ :: _, [] => false
  | a :: as, b :: bs =>
    if a.toNat < b.toNat then true
    else if b.toNat < a.toNat then false
    else strLtB as bs

/-- Python `s < t` on the two `pubdate_iso` strings. -/
def pubLt (s t : String) : Bool := strLtB s.data t.data

/-- Insert `x` in front of the first element whose key is `≤` its own
(descending order; `x` stands before later-listed equal keys). -/
def insertD (x : Rec) : List Rec → List Rec
  | [] => [x]
  | y :: ys =>
    if pubLt x.pubdate_iso y.pubdate_iso then y :: insertD x ys
    else x :: y :: ys

/-- Stable descending sort by the `pubdate_iso` string. -/
def sortDesc : List Rec → List Rec
  | [] => []
  | x :: xs => insertD x (sortDesc xs)

/-! ## Python slices `l[:n]` and `l[n:]` for an `int` index -/

/-- `l[:n]` with Python semantics, including negative `n`. -/
def pyTake (n : Int) (l : List α) : List α :=
  if 0 ≤ n then l.take n.toNat
  else l.take (l.length - min l.length n.natAbs)

/-- `l[n:]` with Python semantics, including negative `n`. -/
def pyDrop (n : Int) (l : List α) : List α :=
  if 0 ≤ n then l.drop n.toNat
  else l.drop (l.length - min l.length n.natAbs)

/-! ## Module constants of publish_episode.py -/

def PODCAST_TITLE : String := "Research Articles (Private)"
def PODCAST_DESCRIPTION : String := "Automatically generated audio narrations of research papers."
def ITUNES_CATEGORY : String := "Science"
def EXPLICIT : Bool := false
def ARTWORK_KEY : String := "artwork/podcast-cover.png"
def INDEX_KEY : String := "index.html"
def PODCAST_AUTHOR : String := "Research Articles Podcast"
def PODCAST_OWNER_EMAIL : String := "npalamuttam04@gmail.com"
def KEEP_N_DEFAULT : Int := 30

/-! ## Timestamps

`datetime.now(timezone.utc)` carries microseconds; `strftime` formatting for
the guid drops them, `isoformat()` keeps them (omitting the fractional part
when it is zero). -/

/-- A timezone-aware UTC datetime value, microseconds included. -/
structure DateTimeU where
  year : Nat
  month : Nat
  day : Nat
  hour : Nat
  minute : Nat
  second : Nat
  usec : Nat
deriving DecidableEq, Repr

/-- Value of a decimal digit character. -/
def digitVal (c : Char) : Nat := c.toNat - 48

/-- Digit string to number, most significant first. -/
def digitsVal (l : List Char) : Nat := l.foldl (fun acc c => 10 * acc + digitVal c) 0

/-- Split a leading run of digits from the rest. -/
def splitDigits : List Char → (List Char × List Char)
  | [] => ([], [])
  | c :: cs =>
    if c.isDigit then
      let (ds, r) := splitDigits cs
      (c :: ds, r)
    else ([], c :: cs)

/-- Parse what follows `YYYY-MM-DDTHH:MM:SS`: an optional fractional-seconds
part then a UTC suffix.  The code feeds `fromisoformat` the string after
`.replace("Z", "+00:00")`, so both `Z` and `+00:00` denote UTC.  A string
without any zone suffix would make the code convert from the host's local
zone (environment-dependent), and other offsets do not occur in
system-written records; both are outside this model and map to `none`. -/
def parseFracSuffix : List Char → Option Nat
  | ['Z'] => some 0
  | ['+', '0', '0', ':', '0', '0'] => some 0
  | '.' :: rest =>
    let (ds, suf) := splitDigits rest
    if ds.length = 0 || 6 < ds.length then none
    else
      match suf with
      | ['Z'] => some (digitsVal ds * 10 ^ (6 - ds.length))
      | ['+', '0', '0', ':', '0', '0'] => some (digitsVal ds * 10 ^ (6 - ds.length))
      | _ => none
  | _ => none

/-- `datetime.fromisoformat(e["pubdate_iso"].replace("Z", "+00:00"))`
(render_feed_xml line 217), restricted to UTC-suffixed ISO strings. -/
def parsePubdate (s : String) : Option DateTimeU :=
  match s.data with
  | y1 :: y2 :: y3 :: y4 :: '-' :: mo1 :: mo2 :: '-' :: d1 :: d2 :: 'T' ::
    h1 :: h2 :: ':' :: mi1 :: mi2 :: ':' :: s1 :: s2 :: rest =>
    if y1.isDigit && y2.isDigit && y3.isDigit && y4.isDigit &&
       mo1.isDigit && mo2.isDigit && d1.isDigit && d2.isDigit &&
       h1.isDigit && h2.isDigit && mi1.isDigit && mi2.isDigit &&
       s1.isDigit && s2.isDigit then
      match parseFracSuffix rest with
      | some us =>
        let yr := 1000 * digitVal y1 + 100 * digitVal y2 + 10 * digitVal y3 + digitVal y4
        let mo := 10 * digitVal mo1 + digitVal mo2
        let dy := 10 * digitVal d1 + digitVal d2
        let hr := 10 * digitVal h1 + digitVal h2
        let mi := 10 * digitVal mi1 + digitVal mi2
        let sc := 10 * digitVal s1 + digitVal s2
        if 1 ≤ yr && 1 ≤ mo && mo ≤ 12 && 1 ≤ dy && dy ≤ 31 &&
           hr ≤ 23 && mi ≤ 59 && sc ≤ 59 then
          some ⟨yr, mo, dy, hr, mi, sc, us⟩
        else none
      | none => none
    else none
  | _ => none

/-- Chronological value of a datetime (microsecond resolution); the scaling
factors strictly dominate each field's range, so chronological comparison is
comparison of this value. -/
def chronoVal (t : DateTimeU) : Nat :=
  ((((((t.year * 13 + t.month) * 32 + t.day) * 24 + t.hour) * 60 + t.minute) * 60
      + t.second) * 1000000) + t.usec

/-- Day of week for a Gregorian date, 0 = Sunday (Sakamoto's method). -/
def dayOfWeek (y m d : Nat) : Nat :=
  let t : List Nat := [0, 3, 2, 5, 0, 3, 5, 1, 4, 6, 2, 4]
  let y2 := if m < 3 then y - 1 else y
  (y2 + y2 / 4 - y2 / 100 + y2 / 400 + t.getD (m - 1) 0 + d) % 7

def dayNames : List String := ["Sun", "Mon", "Tue", "Wed", "Thu", "Fri", "Sat"]

def monthNames : List String :=
  ["Jan", "Feb", "Mar", "Apr", "May", "Jun", "Jul", "Aug", "Sep", "Oct", "Nov", "Dec"]

/-- Two-digit zero-padded decimal (faithful for values below 100, which is
all `strftime` ever receives here). -/
def pad2 (n : Nat) : String :=
  String.mk [Nat.digitChar (n / 10 % 10), Nat.digitChar (n % 10)]

/-- Four-digit zero-padded decimal (`datetime` years are at most 9999). -/
def pad4 (n : Nat) : String :=
  String.mk [Nat.digitChar (n / 1000 % 10), Nat.digitChar (n / 100 % 10),
             Nat.digitChar (n / 10 % 10), Nat.digitChar (n % 10)]

/-- Six-digit zero-padded decimal (microseconds in `isoformat()`). -/
def pad6 (n : Nat) : String :=
  String.mk [Nat.digitChar (n / 100000 % 10), Nat.digitChar (n / 10000 % 10),
             Nat.digitChar (n / 1000 % 10), Nat.digitChar (n / 100 % 10),
             Nat.digitChar (n / 10 % 10), Nat.digitChar (n % 10)]

/-- `rfc822(dt)` (lines 93-95): `dt.strftime("%a, %d %b %Y %H:%M:%S GMT")`
after normalizing to UTC (our datetimes are already UTC). -/
def rfc822 (dt : DateTimeU) : String :=
  dayNames.getD (dayOfWeek dt.year dt.month dt.day) "" ++ ", " ++
    pad2 dt.day ++ " " ++ monthNames.getD (dt.month - 1) "" ++ " " ++
    pad4 dt.year ++ " " ++ pad2 dt.hour ++ ":" ++ pad2 dt.minute ++ ":" ++
    pad2 dt.second ++ " GMT"

/-- `now.isoformat().replace("+00:00", "Z")` (line 315): Python omits the
fractional part when the microsecond field is zero. -/
def isoformatZ (t : DateTimeU) : String :=
  pad4 t.year ++ "-" ++ pad2 t.month ++ "-" ++ pad2 t.day ++ "T" ++
    pad2 t.hour ++ ":" ++ pad2 t.minute ++ ":" ++ pad2 t.second ++
    (if t.usec = 0 then "" else "." ++ pad6 t.usec) ++ "Z"

/-! ## Key naming and the guid (main, lines 292-299) -/

/-- `now.strftime('%Y%m%d%H%M%S')`: second precision, microseconds dropped. -/
def fmt14 (t : DateTimeU) : String :=
  String.mk [Nat.digitChar (t.year / 1000 % 10), Nat.digitChar (t.year / 100 % 10),
             Nat.digitChar (t.year / 10 % 10), Nat.digitChar (t.year % 10),
             Nat.digitChar (t.month / 10 % 10), Nat.digitChar (t.month % 10),
             Nat.digitChar (t.day / 10 % 10), Nat.digitChar (t.day % 10),
             Nat.digitChar (t.hour / 10 % 10), Nat.digitChar (t.hour % 10),
             Nat.digitChar (t.minute / 10 % 10), Nat.digitChar (t.minute % 10),
             Nat.digitChar (t.second / 10 % 10), Nat.digitChar (t.second % 10)]

/-- `guid = f"{args.arxiv}-{now.strftime('%Y%m%d%H%M%S')}"` (line 296). -/
def mkGuid (arxiv : String) (t : DateTimeU) : String :=
  arxiv ++ "-" ++ fmt14 t

/-- `mp3_key = f"podcasts/{slug}.mp3"` (line 298). -/
def mkMp3Key (title : String) : String :=
  "podcasts/" ++ slugify title ++ ".mp3"

/-- `episode_page_key = f"episodes/{slug}.html"` (line 299). -/
def mkPageKey (title : String) : String :=
  "episodes/" ++ slugify title ++ ".html"

/-- The record appended to episodes.json by main, step 7 (lines 311-319). -/
def mkRecord (arxiv title description : String) (now : DateTimeU)
    (mp3Len : Nat) : Rec :=
  { guid := mkGuid arxiv now
    title := title
    description := description
    pubdate_iso := isoformatZ now
    mp3_key := mkMp3Key title
    mp3_length_bytes := mp3Len
    episode_page_key := mkPageKey title }

/-! ## XML escaping and the feed renderer (lines 208-256) -/

/-- `xml.sax.saxutils.escape`: `&`, `<`, `>` to entities. -/
def escapeChar (c : Char) : List Char :=
  if c = '&' then "&amp;".data
  else if c = '<' then "&lt;".data
  else if c = '>' then "&gt;".data
  else [c]

/-- `escape(s)` on whole strings. -/
def escape (s : String) : String :=
  String.mk (s.data.foldr (fun c acc => escapeChar c ++ acc) [])

/-- `require_env("R2_PUBLIC_BASE").rstrip("/")`. -/
def stripBase (base : String) : String :=
  String.mk (rstripBy (fun c => c = '/') base.data)

/-- One `<item>` block of the feed (loop body, lines 216-230); `none` when
`datetime.fromisoformat` would raise on the record's `pubdate_iso`. -/
def renderItem (base : String) (e : Rec) : Option String :=
  match parsePubdate e.pubdate_iso with
  | none => none
  | some dt =>
    let mp3_url := base ++ "/" ++ e.mp3_key
    let page_url := base ++ "/" ++ e.episode_page_key
    some ("    <item>\n      <title>" ++ escape e.title ++
      "</title>\n      <description>" ++ escape e.description ++
      "</description>\n      <link>" ++ escape page_url ++
      "</link>\n      <enclosure url=\"" ++ escape mp3_url ++
      "\" length=\"" ++ toString e.mp3_length_bytes ++
      "\" type=\"audio/mpeg\"/>\n      <guid>" ++ escape e.guid ++
      "</guid>\n      <pubDate>" ++ escape (rfc822 dt) ++
      "</pubDate>\n    </item>")

/-- `items_xml` built by the rendering loop: one entry per episode, in
order; `none` as soon as one date fails to parse. -/
def feedItems (base : String) : List Rec → Option (List String)
  | [] => some []
  | e :: es =>
    match renderItem base e, feedItems base es with
    | some s, some ss => some (s :: ss)
    | _, _ => none

/-- `"\n".join(items_xml)`. -/
def joinNl : List String → String
  | [] => ""
  | [s] => s
  | s :: ss => s ++ "\n" ++ joinNl ss

/-- The channel wrapper of `render_feed_xml` around the joined items. -/
def feedWrap (base : String) (itemsStr : String) : String :=
  let channel_link := base ++ "/" ++ INDEX_KEY
  let artwork_url := base ++ "/" ++ ARTWORK_KEY
  "<?xml version=\"1.0\" encoding=\"UTF-8\"?>\n<rss version=\"2.0\" xmlns:itunes=\"http://www.itunes.com/dtds/podcast-1.0.dtd\">\n  <channel>\n    <title>" ++
    escape PODCAST_TITLE ++ "</title>\n    <description>" ++
    escape PODCAST_DESCRIPTION ++
    "</description>\n    <language>en-us</language>\n    <link>" ++
    escape channel_link ++
    "</link>\n\n    <!-- Spotify / Apple ownership metadata -->\n    <itunes:author>" ++
    escape PODCAST_AUTHOR ++ "</itunes:author>\n    <itunes:owner>\n      <itunes:name>" ++
    escape PODCAST_AUTHOR ++ "</itunes:name>\n      <itunes:email>" ++
    escape PODCAST_OWNER_EMAIL ++
    "</itunes:email>\n    </itunes:owner>\n\n    <itunes:explicit>" ++
    (if EXPLICIT then "true" else "false") ++
    "</itunes:explicit>\n    <itunes:category text=\"" ++
    escape ITUNES_CATEGORY ++ "\"/>\n    <itunes:image href=\"" ++
    escape artwork_url ++ "\"/>\n\n" ++ itemsStr ++ "\n  </channel>\n</rss>\n"

/-- `render_feed_xml(episodes)` with the `R2_PUBLIC_BASE` value passed
explicitly; `none` when a record's date would make the code raise. -/
def renderFeedXml (rawBase : String) (episodes : List Rec) : Option String :=
  (feedItems (stripBase rawBase) episodes).map
    (fun its => feedWrap (stripBase rawBase) (joinNl its))

/-! ## Shared assets (ensure_index_html / ensure_artwork, lines 129-151) -/

/-- The remote store as seen through `head_object_exists` (any lookup
failure already folded into `false`). -/
structure Store where
  has : String → Bool

/-- Effect of `put_object` on key existence. -/
def putKey (k : String) (st : Store) : Store :=
  ⟨fun q => q == k || st.has q⟩

/-- `ensure_index_html()`: upload only when the existence probe fails;
returns the new store and the keys uploaded. -/
def ensureIndexHtml (st : Store) : Store × List String :=
  if st.has INDEX_KEY then (st, [])
  else (putKey INDEX_KEY st, [INDEX_KEY])

/-- `ensure_artwork()`: no-op when present; raises when absent and no local
cover exists; otherwise uploads the local cover. -/
def ensureArtwork (coverAvail : Bool) (st : Store) :
    Except String (Store × List String) :=
  if st.has ARTWORK_KEY then .ok (st, [])
  else if coverAvail then .ok (putKey ARTWORK_KEY st, [ARTWORK_KEY])
  else .error "Artwork missing in R2 and local cover not found"

/-- Step 3 of main: `ensure_index_html(); ensure_artwork()`. -/
def ensureSharedAssets (coverAvail : Bool) (st : Store) :
    Except String (Store × List String) :=
  let p := ensureIndexHtml st
  match ensureArtwork coverAvail p.1 with
  | .ok q => .ok (q.1, p.2 ++ q.2)
  | .error e => .error e

/-! ## Eviction and the publish tail (main, steps 7-9, lines 309-334) -/

/-- The two storage keys of a record, in the order the eviction loop
deletes them (lines 330-331). -/
def recKeys (r : Rec) : List String := [r.mp3_key, r.episode_page_key]

/-- Keys of all records in order. -/
def allKeys : List Rec → List String
  | [] => []
  | r :: rs => r.mp3_key :: r.episode_page_key :: allKeys rs

/-- The eviction loop: `delete_key` has no exception handling, so the first
failing delete (modelled by the `fails` oracle) aborts the loop.  Returns
the keys deleted before the failure and the failing key, if any. -/
def evictList (fails : String → Bool) : List Rec → List String × Option String
  | [] => ([], none)
  | r :: rs =>
    if fails r.mp3_key then ([], some r.mp3_key)
    else if fails r.episode_page_key then ([r.mp3_key], some r.episode_page_key)
    else
      (r.mp3_key :: r.episode_page_key :: (evictList fails rs).1,
        (evictList fails rs).2)

/-- Result of the publish tail: the final durable catalog, the uploaded
feed (if rendering succeeded), the keys deleted, and the error that aborted
the run, if any. -/
structure Outcome where
  persisted : List Rec
  feed : Option String
  deleted : List String
  error : Option String
deriving Repr

/-- Steps 7-9 of `main`: append the new record, stable-sort descending by
`pubdate_iso`, persist the full list (line 321), render and upload the feed
from `items[:keep]` (aborting if a date fails to parse), delete the keys of
`items[keep:]` (aborting at the first failed delete, line 329-331 have no
handler), and only then persist the truncated list (line 334). -/
def publishRun (fails : String → Bool) (rawBase : String) (catalog : List Rec)
    (newRec : Rec) (keep : Int) : Outcome :=
  match renderFeedXml rawBase (pyTake keep (sortDesc (catalog ++ [newRec]))) with
  | none =>
    ⟨sortDesc (catalog ++ [newRec]), none, [], some "render_feed_xml raised"⟩
  | some feed =>
    match evictList fails (pyDrop keep (sortDesc (catalog ++ [newRec]))) with
    | (ds, some k) =>
      ⟨sortDesc (catalog ++ [newRec]), some feed, ds,
        some ("delete_key raised on " ++ k)⟩
    | (ds, none) =>
      ⟨pyTake keep (sortDesc (catalog ++ [newRec])), some feed, ds, none⟩

/-- Delete oracle of a run in which every remote delete succeeds. -/
def noFail : String → Bool := fun _ => false

/-! ## Concrete fixtures used in the scenario and counterexample theorems -/

/-- A base URL standing for `R2_PUBLIC_BASE`. -/
def sampleBase : String := "https://cdn.example.com"

/-- Catalog record dated 2024-01-01T00:00:00Z. -/
def recJan1 : Rec :=
  { guid := "1111.00001-20240101000000", title := "alpha", description := "d1"
    pubdate_iso := "2024-01-01T00:00:00Z", mp3_key := "podcasts/alpha.mp3"
    mp3_length_bytes := 11, episode_page_key := "episodes/alpha.html" }

/-- Catalog record dated 2024-01-02T00:00:00Z. -/
def recJan2 : Rec :=
  { guid := "1111.00002-20240102000000", title := "beta", description := "d2"
    pubdate_iso := "2024-01-02T00:00:00Z", mp3_key := "podcasts/beta.mp3"
    mp3_length_bytes := 22, episode_page_key := "episodes/beta.html" }

/-- The new record published on 2024-01-03T00:00:00Z, built exactly as
main builds it. -/
def recJan3 : Rec :=
  mkRecord "1111.00003" "gamma" "d3" ⟨2024, 1, 3, 0, 0, 0, 0⟩ 33

/-- A record whose title "A B" slugs to "a-b" (kept in the collision
scenario, dated 2024-01-02). -/
def recKeptAB : Rec :=
  mkRecord "2222.00001" "A B" "d" ⟨2024, 1, 2, 0, 0, 0, 0⟩ 5

/-- A record whose distinct title "a b" slugs to the same "a-b" (evicted in
the collision scenario, dated 2024-01-01). -/
def recEvictAB : Rec :=
  mkRecord "2222.00002" "a b" "d" ⟨2024, 1, 1, 0, 0, 0, 0⟩ 6

/-- A record stamped at a whole second (isoformat omits the fraction). -/
def recWholeSec : Rec :=
  { guid := "3333.00001-20240102000000", title := "whole", description := "d"
    pubdate_iso := "2024-01-02T00:00:00Z", mp3_key := "podcasts/whole.mp3"
    mp3_length_bytes := 1, episode_page_key := "episodes/whole.html" }

/-- A record stamped half a second later (isoformat keeps the fraction). -/
def recFracSec : Rec :=
  { guid := "3333.00002-20240102000000", title := "frac", description := "d"
    pubdate_iso := "2024-01-02T00:00:00.500000Z", mp3_key := "podcasts/frac.mp3"
    mp3_length_bytes := 2, episode_page_key := "episodes/frac.html" }

/-- A store oracle in which exactly the delete of recJan2's audio key
raises. -/
def failBetaMp3 : String → Bool := fun k => k == recJan2.mp3_key

/-- A store in which no object exists yet. -/
def emptyStore : Store := ⟨fun _ => false⟩

/-! ## Order facts about the Python string comparison -/

theorem strLtB_irrefl (a : List Char) : strLtB a a = false := by
  induction a with
  | nil => rfl
  | cons c cs ih => simp [strLtB, ih]

theorem pubLt_irrefl (s : String) : pubLt s s = false := strLtB_irrefl s.data

theorem strLtB_neg_trans : ∀ {x y z : List Char},
    strLtB x y = false → strLtB y z = false → strLtB x z = false
  | [], [], [], _, _ => rfl
  | [], _ :: _, _, h1, _ => by simp [strLtB] at h1
  | _ :: _, [], [], _, _ => rfl
  | _ :: _, [], _ :: _, _, h2 => by simp [strLtB] at h2
  | _ :: _, _ :: _, [], _, _ => rfl
  | a :: as, b :: bs, c :: cs, h1, h2 => by
    simp only [strLtB] at h1 h2 ⊢
    by_cases hab : a.toNat < b.toNat
    · simp [hab] at h1
    · by_cases hbc : b.toNat < c.toNat
      · simp [hbc] at h2
      · by_cases hba : b.toNat < a.toNat
        · have hca : ¬ a.toNat < c.toNat := by omega
          have : c.toNat < a.toNat := by omega
          simp [hca, this]
        · by_cases hcb : c.toNat < b.toNat
          · have hca : ¬ a.toNat < c.toNat := by omega
            have : c.toNat < a.toNat := by omega
            simp [hca, this]
          · have hac : ¬ a.toNat < c.toNat := by omega
            have hca : ¬ c.toNat < a.toNat := by omega
            rw [if_neg hab, if_neg hba] at h1
            rw [if_neg hbc, if_neg hcb] at h2
            rw [if_neg hac, if_neg hca]
            exact strLtB_neg_trans h1 h2

theorem strLtB_asymm : ∀ {x y : List Char}, strLtB x y = true → strLtB y x = false
  | [], [], h => by simp [strLtB] at h
  | [], _ :: _, _ => rfl
  | _ :: _, [], h => by simp [strLtB] at h
  | a :: as, b :: bs, h => by
    simp only [strLtB] at h ⊢
    by_cases hab : a.toNat < b.toNat
    · have h1 : ¬ b.toNat < a.toNat := by omega
      simp [h1, hab]
    · by_cases hba : b.toNat < a.toNat
      · simp [hab, hba] at h
      · simp only [if_neg hab, if_neg hba] at h ⊢
        exact strLtB_asymm h

/-- The descending-sortedness invariant the catalog maintains: each record's
`pubdate_iso` string is not less than that of any later record. -/
def DescSorted (l : List Rec) : Prop :=
  l.Pairwise (fun a b => pubLt a.pubdate_iso b.pubdate_iso = false)

theorem mem_insertD {z x : Rec} : ∀ {l : List Rec},
    z ∈ insertD x l ↔ z = x ∨ z ∈ l := by
  intro l
  induction l with
  | nil => simp [insertD]
  | cons y ys ih =>
    simp only [insertD]
    split
    · simp only [List.mem_cons, ih]
      tauto
    · simp only [List.mem_cons]

theorem insertD_perm (x : Rec) : ∀ (l : List Rec), (insertD x l).Perm (x :: l)
  | [] => List.Perm.refl _
  | y :: ys => by
    simp only [insertD]
    split
    · exact ((insertD_perm x ys).cons y).trans (List.Perm.swap x y ys)
    · exact List.Perm.refl _

theorem sortDesc_perm : ∀ (l : List Rec), (sortDesc l).Perm l
  | [] => List.Perm.refl _
  | x :: xs => (insertD_perm x (sortDesc xs)).trans ((sortDesc_perm xs).cons x)

theorem sortDesc_length (l : List Rec) : (sortDesc l).length = l.length :=
  (sortDesc_perm l).length_eq

theorem insertD_sorted {x : Rec} : ∀ {l : List Rec},
    DescSorted l → DescSorted (insertD x l) := by
  intro l
  induction l with
  | nil => intro _; simp [insertD, DescSorted]
  | cons y ys ih =>
    intro hs
    rcases List.pairwise_cons.mp hs with ⟨hy, hys⟩
    simp only [insertD]
    split
    · rename_i hxy
      refine List.pairwise_cons.mpr ⟨?_, ih hys⟩
      intro w hw
      rcases mem_insertD.mp hw with rfl | hwys
      · exact strLtB_asymm hxy
      · exact hy w hwys
    · rename_i hxy
      have hxy2 : pubLt x.pubdate_iso y.pubdate_iso = false := by
        simpa using hxy
      refine List.pairwise_cons.mpr ⟨?_, hs⟩
      intro w hw
      rcases List.mem_cons.mp hw with rfl | hwys
      · exact hxy2
      · exact strLtB_neg_trans hxy2 (hy w hwys)

theorem sortDesc_sorted : ∀ (l : List Rec), DescSorted (sortDesc l)
  | [] => List.Pairwise.nil
  | _ :: xs => insertD_sorted (sortDesc_sorted xs)

/-! ## Stability of the sort -/

theorem insertD_filter_pos {x : Rec} {t : String}
    (hx : (x.pubdate_iso == t) = true) :
    ∀ (l : List Rec), (insertD x l).filter (fun r => r.pubdate_iso == t) =
      x :: l.filter (fun r => r.pubdate_iso == t)
  | [] => by simp [insertD, List.filter_cons, hx]
  | y :: ys => by
    simp only [insertD]
    split
    · rename_i hxy
      have hxeq : x.pubdate_iso = t := by simpa using hx
      have hyne : (y.pubdate_iso == t) = false := by
        apply Bool.eq_false_iff.mpr
        intro hyt
        have hyeq : y.pubdate_iso = t := by simpa using hyt
        rw [hxeq, hyeq, pubLt_irrefl t] at hxy
        exact Bool.noConfusion hxy
      simp [List.filter_cons, hyne, insertD_filter_pos hx ys]
    · simp [List.filter_cons, hx]

theorem insertD_filter_neg {x : Rec} {t : String}
    (hx : (x.pubdate_iso == t) = false) :
    ∀ (l : List Rec), (insertD x l).filter (fun r => r.pubdate_iso == t) =
      l.filter (fun r => r.pubdate_iso == t)
  | [] => by simp [insertD, List.filter_cons, hx]
  | y :: ys => by
    simp only [insertD]
    split
    · simp [List.filter_cons, insertD_filter_neg hx ys]
    · simp [List.filter_cons, hx]

/-- Stability: among records with any fixed `pubdate_iso` value the sort
preserves the input's relative order. -/
theorem sortDesc_filter (t : String) : ∀ (l : List Rec),
    (sortDesc l).filter (fun r => r.pubdate_iso == t) =
      l.filter (fun r => r.pubdate_iso == t)
  | [] => rfl
  | x :: xs => by
    simp only [sortDesc]
    by_cases hx : (x.pubdate_iso == t) = true
    · rw [insertD_filter_pos hx, sortDesc_filter t xs]
      simp [List.filter_cons, hx]
    · have hx2 : (x.pubdate_iso == t) = false := by
        simpa using hx
      rw [insertD_filter_neg hx2, sortDesc_filter t xs]
      simp [List.filter_cons, hx2]

/-! ## Structural facts about `rstripBy`, `lstripBy`, `take` -/

theorem rstripBy_head {p : Char → Bool} : ∀ (l : List Char),
    rstripBy p l = [] ∨ (rstripBy p l).head? = l.head?
  | [] => Or.inl rfl
  | a :: as => by
    simp only [rstripBy]
    cases hr : rstripBy p as with
    | nil =>
      by_cases hp : p a
      · simp [hp]
      · simp [hp]
    | cons d ds => simp

theorem rstripBy_last {p : Char → Bool} : ∀ (l : List Char),
    rstripBy p l = [] ∨
      ∃ c, (rstripBy p l).getLast? = some c ∧ p c = false
  | [] => Or.inl rfl
  | a :: as => by
    simp only [rstripBy]
    cases hr : rstripBy p as with
    | nil =>
      by_cases hp : p a
      · simp [hp]
      · right
        refine ⟨a, by simp [hp], by simpa using hp⟩
    | cons d ds =>
      right
      rcases rstripBy_last (p := p) as with hnil | ⟨c, hc, hpc⟩
      · rw [hnil] at hr; simp at hr
      · rw [hr] at hc
        exact ⟨c, by rw [List.getLast?_cons_cons]; exact hc, hpc⟩

theorem rstripBy_length_le {p : Char → Bool} : ∀ (l : List Char),
    (rstripBy p l).length ≤ l.length
  | [] => Nat.le_refl _
  | a :: as => by
    simp only [rstripBy]
    cases hr : rstripBy p as with
    | nil =>
      by_cases hp : p a
      · simp [hp]
      · simp [hp]
    | cons d ds =>
      have := rstripBy_length_le (p := p) as
      rw [hr] at this
      simpa using Nat.succ_le_succ this

theorem rstripBy_ne_nil_of_head {p : Char → Bool} {a : Char} (as : List Char)
    (ha : p a = false) : rstripBy p (a :: as) ≠ [] := by
  simp only [rstripBy]
  cases hr : rstripBy p as with
  | nil => simp [ha]
  | cons d ds => simp

theorem lstripBy_head {p : Char → Bool} : ∀ (l : List Char),
    lstripBy p l = [] ∨
      ∃ c rest, lstripBy p l = c :: rest ∧ p c = false
  | [] => Or.inl rfl
  | a :: as => by
    by_cases hp : p a
    · have heq : lstripBy p (a :: as) = lstripBy p as := by
        simp [lstripBy, List.dropWhile_cons, hp]
      rw [heq]
      exact lstripBy_head as
    · right
      refine ⟨a, as, ?_, by simpa using hp⟩
      simp [lstripBy, List.dropWhile_cons, hp]

theorem take_head {l : List Char} {n : Nat} {c : Char} {rest : List Char}
    (h : l.take n = c :: rest) : l.head? = some c := by
  cases l with
  | nil => simp at h
  | cons a as =>
    cases n with
    | zero => simp at h
    | succ m =>
      rw [List.take_succ_cons] at h
      rw [List.head?_cons]
      exact congrArg some (List.cons.inj h).1

/-! ## The slug never starts or ends with a hyphen and fits the bound -/

theorem stripHyph_props (l : List Char) :
    stripHyph l = [] ∨
      ((stripHyph l).head? ≠ some '-' ∧
        ∃ c, (stripHyph l).getLast? = some c ∧ c ≠ '-') := by
  unfold stripHyph
  rcases lstripBy_head (p := fun c => c = '-') l with hnil | ⟨c, rest, heq, hpc⟩
  · rw [hnil]; exact Or.inl rfl
  · rw [heq]
    have hcne : c ≠ '-' := by simpa using hpc
    have hne := rstripBy_ne_nil_of_head (p := fun c => c = '-') rest hpc
    right
    constructor
    · rcases rstripBy_head (p := fun c => c = '-') (c :: rest) with h0 | hh
      · exact absurd h0 hne
      · rw [hh, List.head?_cons]
        intro hcon
        exact hcne (Option.some.inj hcon)
    · rcases rstripBy_last (p := fun c => c = '-') (c :: rest) with h0 | ⟨e, he, hpe⟩
      · exact absurd h0 hne
      · exact ⟨e, he, by simpa using hpe⟩

theorem slugCore_props (d : List Char) :
    slugCore 120 d = [] ∨
      ((slugCore 120 d).head? ≠ some '-' ∧
        (∃ c, (slugCore 120 d).getLast? = some c ∧ c ≠ '-') ∧
        (slugCore 120 d).length ≤ 120) := by
  rcases stripHyph_props
      (collapseRuns
        (((rstripBy pyIsSpace (lstripBy pyIsSpace d)).map Char.toLower).filter
          (fun c => isWordChar c || pyIsSpace c || c = '-'))) with hnil | ⟨hh, c0, hc0, hc0ne⟩
  · left
    unfold slugCore
    have hs : slugStripped d = [] := hnil
    rw [hs]
    simp
  · have hprops : (slugStripped d).head? ≠ some '-' ∧
        ∃ c, (slugStripped d).getLast? = some c ∧ c ≠ '-' :=
      ⟨hh, c0, hc0, hc0ne⟩
    unfold slugCore
    by_cases hlen : (slugStripped d).length > 120
    · rw [if_pos hlen]
      cases ht : (slugStripped d).take 120 with
      | nil =>
        have h120 : ((slugStripped d).take 120).length = 120 := by
          rw [List.length_take]
          omega
        rw [ht] at h120
        simp at h120
      | cons a rest2 =>
        have hhead : (slugStripped d).head? = some a := take_head ht
        have hane : a ≠ '-' := by
          intro hcon
          rw [hcon] at hhead
          exact hprops.1 hhead
        have hpa : (fun c => decide (c = '-')) a = false := by
          simpa using hane
        have hlentake : (a :: rest2).length = 120 := by
          rw [← ht, List.length_take]
          omega
        have hne := rstripBy_ne_nil_of_head (p := fun c => c = '-') rest2 hpa
        right
        refine ⟨?_, ?_, ?_⟩
        · rcases rstripBy_head (p := fun c => c = '-') (a :: rest2) with
            h0 | hh2
          · exact absurd h0 hne
          · rw [hh2, List.head?_cons]
            intro hcon
            exact hane (Option.some.inj hcon)
        · rcases rstripBy_last (p := fun c => c = '-') (a :: rest2) with
            h0 | ⟨e, he, hpe⟩
          · exact absurd h0 hne
          · exact ⟨e, he, by simpa using hpe⟩
        · calc (rstripBy (fun c => c = '-') (a :: rest2)).length
              ≤ (a :: rest2).length := rstripBy_length_le _
            _ ≤ 120 := by rw [hlentake]
    · rw [if_neg hlen]
      right
      exact ⟨hprops.1, hprops.2, by omega⟩

/-! ## Feed items: one per record, in order -/

theorem feedItems_length {b : String} : ∀ {l : List Rec} {its : List String},
    feedItems b l = some its → its.length = l.length := by
  intro l
  induction l with
  | nil =>
    intro its h
    simp only [feedItems, Option.some.injEq] at h
    rw [← h]
    rfl
  | cons e es ih =>
    intro its h
    simp only [feedItems] at h
    cases hre : renderItem b e with
    | none => rw [hre] at h; simp at h
    | some s =>
      cases hfi : feedItems b es with
      | none => rw [hre, hfi] at h; simp at h
      | some ss =>
        rw [hre, hfi] at h
        simp only [Option.some.injEq] at h
        rw [← h]
        simp [ih hfi]

/-! ## The eviction loop -/

theorem evictList_noFail : ∀ (l : List Rec),
    evictList noFail l = (allKeys l, none)
  | [] => rfl
  | r :: rs => by
    simp [evictList, noFail, allKeys, evictList_noFail rs]

theorem evictList_prefix (fails : String → Bool) : ∀ (l : List Rec),
    ∃ suf, (evictList fails l).1 ++ suf = allKeys l
  | [] => ⟨[], rfl⟩
  | r :: rs => by
    simp only [evictList]
    by_cases h1 : fails r.mp3_key
    · exact ⟨allKeys (r :: rs), by simp [h1]⟩
    · by_cases h2 : fails r.episode_page_key
      · exact ⟨r.episode_page_key :: allKeys rs, by simp [h1, h2, allKeys]⟩
      · rcases evictList_prefix fails rs with ⟨suf, hsuf⟩
        exact ⟨suf, by simp [h1, h2, allKeys, hsuf]⟩

theorem evictList_fails_some (fails : String → Bool) : ∀ (l : List Rec),
    (∃ r ∈ l, fails r.mp3_key = true ∨ fails r.episode_page_key = true) →
    (evictList fails l).2 ≠ none
  | [] => by rintro ⟨r, hr, _⟩; simp at hr
  | r :: rs => by
    rintro ⟨w, hw, hfw⟩
    simp only [evictList]
    by_cases h1 : fails r.mp3_key
    · simp [h1]
    · by_cases h2 : fails r.episode_page_key
      · simp [h1, h2]
      · simp only [h1, h2, if_false, Bool.false_eq_true]
        rcases List.mem_cons.mp hw with rfl | hw2
        · rcases hfw with hf | hf
          · exact absurd hf (by simpa using h1)
          · exact absurd hf (by simpa using h2)
        · exact evictList_fails_some fails rs ⟨w, hw2, hfw⟩

theorem mem_allKeys {k : String} : ∀ {l : List Rec},
    k ∈ allKeys l ↔ ∃ r ∈ l, k = r.mp3_key ∨ k = r.episode_page_key := by
  intro l
  induction l with
  | nil => simp [allKeys]
  | cons r rs ih =>
    simp only [allKeys, List.mem_cons, ih]
    constructor
    · rintro (rfl | rfl | ⟨w, hw, hk⟩)
      · exact ⟨r, Or.inl rfl, Or.inl rfl⟩
      · exact ⟨r, Or.inl rfl, Or.inr rfl⟩
      · exact ⟨w, Or.inr hw, hk⟩
    · rintro ⟨w, rfl | hw, hk⟩
      · rcases hk with rfl | rfl
        · exact Or.inl rfl
        · exact Or.inr (Or.inl rfl)
      · exact Or.inr (Or.inr ⟨w, hw, hk⟩)

/-! ## Success-path inversion of the publish tail -/

theorem publishRun_success {fails : String → Bool} {rawBase : String}
    {catalog : List Rec} {newRec : Rec} {keep : Int}
    (h : (publishRun fails rawBase catalog newRec keep).error = none) :
    ∃ its,
      feedItems (stripBase rawBase)
          (pyTake keep (sortDesc (catalog ++ [newRec]))) = some its ∧
      publishRun fails rawBase catalog newRec keep =
        ⟨pyTake keep (sortDesc (catalog ++ [newRec])),
          some (feedWrap (stripBase rawBase) (joinNl its)),
          (evictList fails (pyDrop keep (sortDesc (catalog ++ [newRec])))).1,
          none⟩ := by
  cases hfi : feedItems (stripBase rawBase)
      (pyTake keep (sortDesc (catalog ++ [newRec]))) with
  | none =>
    exfalso
    have hrf : renderFeedXml rawBase
        (pyTake keep (sortDesc (catalog ++ [newRec]))) = none := by
      simp [renderFeedXml, hfi]
    unfold publishRun at h
    rw [hrf] at h
    simp at h
  | some its =>
    have hrf : renderFeedXml rawBase
        (pyTake keep (sortDesc (catalog ++ [newRec]))) =
          some (feedWrap (stripBase rawBase) (joinNl its)) := by
      simp [renderFeedXml, hfi]
    cases hev : evictList fails (pyDrop keep (sortDesc (catalog ++ [newRec]))) with
    | mk ds e =>
      cases e with
      | some k =>
        exfalso
        unfold publishRun at h
        rw [hrf, hev] at h
        simp at h
      | none =>
        refine ⟨its, rfl, ?_⟩
        unfold publishRun
        rw [hrf, hev]

/-! ## Strings: data-level injectivity helpers for the guid -/

theorem string_eq_of_data {s t : String} (h : s.data = t.data) : s = t := by
  cases s
  cases t
  simp only at h
  rw [h]

theorem fmt14_data_length (t : DateTimeU) : (fmt14 t).data.length = 14 := rfl

/-- When every delete succeeds and the feed renders, the publish tail's
outcome in closed form. -/
theorem publishRun_noFail_eq {rawBase : String} {catalog : List Rec}
    {newRec : Rec} {keep : Int} {its : List String}
    (hfi : feedItems (stripBase rawBase)
      (pyTake keep (sortDesc (catalog ++ [newRec]))) = some its) :
    publishRun noFail rawBase catalog newRec keep =
      ⟨pyTake keep (sortDesc (catalog ++ [newRec])),
        some (feedWrap (stripBase rawBase) (joinNl its)),
        allKeys (pyDrop keep (sortDesc (catalog ++ [newRec]))), none⟩ := by
  have hrf : renderFeedXml rawBase (pyTake keep (sortDesc (catalog ++ [newRec]))) =
      some (feedWrap (stripBase rawBase) (joinNl its)) := by
    simp [renderFeedXml, hfi]
  unfold publishRun
  rw [hrf, evictList_noFail]

/-! ## Claim theorems -/

/-- C6: `slugify` lowercases, strips characters outside word/space/hyphen,
collapses whitespace/underscore/hyphen runs to one hyphen, trims boundary
hyphens and truncates to 120; the result never starts or ends with a
hyphen, is at most 120 characters long, is a function of the title alone,
and falls back to the literal "episode" when the normalized result is
empty — in particular on the empty title. -/
theorem slugify_contract (s : String) :
    (slugify s).data.head? ≠ some '-' ∧
    (slugify s).data.getLast? ≠ some '-' ∧
    (slugify s).length ≤ 120 ∧
    (slugCore 120 s.data = [] → slugify s = "episode") ∧
    slugify "" = "episode" ∧
    slugify s = slugify s := by
  have hep : slugCore 120 s.data = [] → slugify s = "episode" := by
    intro hc
    simp [slugify, hc]
  by_cases hc : slugCore 120 s.data = []
  · rw [hep hc]
    exact ⟨by decide, by decide, by decide, fun _ => rfl, by decide, rfl⟩
  · have hval : slugify s = String.mk (slugCore 120 s.data) := by
      simp [slugify, hc]
    rcases slugCore_props s.data with h0 | ⟨hh, ⟨c, hcl, hcne⟩, hlen⟩
    · exact absurd h0 hc
    · rw [hval]
      refine ⟨?_, ?_, ?_, fun hcc => absurd hcc hc, by decide, rfl⟩
      · show (slugCore 120 s.data).head? ≠ some '-'
        exact hh
      · show (slugCore 120 s.data).getLast? ≠ some '-'
        rw [hcl]
        intro hcon
        exact hcne (Option.some.inj hcon)
      · show (slugCore 120 s.data).length ≤ 120
        exact hlen

/-- Witness for C6 at the empty title: the normalized result is empty and
the fallback fires. -/
theorem slugify_contract_witness :
    slugCore 120 ("" : String).data = [] ∧ slugify "" = "episode" :=
  ⟨by decide, (slugify_contract "").2.2.2.1 (by decide)⟩

/-- C8 (amended): the catalog sort is a stable descending sort by the
`pubdate_iso` string — a permutation, descending in the code-point order on
the stored strings, with records of equal `pubdate_iso` keeping their
original relative order.  (Descending in the string order is not always
descending in chronological order; see the counterexample.) -/
theorem sort_stable_descending (l : List Rec) :
    (sortDesc l).Perm l ∧ DescSorted (sortDesc l) ∧
    ∀ t, (sortDesc l).filter (fun r => r.pubdate_iso == t) =
      l.filter (fun r => r.pubdate_iso == t) :=
  ⟨sortDesc_perm l, sortDesc_sorted l, fun t => sortDesc_filter t l⟩

/-- C8 counterexample: a record stamped half a second later (fractional
ISO form) sorts AFTER a whole-second record of the same second, because
`.` is below `Z` in code-point order — so a record with a strictly later
publish instant does not precede the earlier one. -/
theorem sort_not_chronological :
    sortDesc [recWholeSec, recFracSec] = [recWholeSec, recFracSec] ∧
    parsePubdate recWholeSec.pubdate_iso = some ⟨2024, 1, 2, 0, 0, 0, 0⟩ ∧
    parsePubdate recFracSec.pubdate_iso = some ⟨2024, 1, 2, 0, 0, 0, 500000⟩ ∧
    chronoVal ⟨2024, 1, 2, 0, 0, 0, 0⟩ < chronoVal ⟨2024, 1, 2, 0, 0, 0, 500000⟩ := by
  exact ⟨by decide, by decide, by decide, by decide⟩

/-- C2 (amended): guids differ whenever the paper identifiers differ or the
second-precision formatted timestamps differ; collisions are possible only
for the same paper within the same formatted second. -/
theorem guid_distinct_outside_same_second (a1 a2 : String) (t1 t2 : DateTimeU)
    (h : a1 ≠ a2 ∨ fmt14 t1 ≠ fmt14 t2) : mkGuid a1 t1 ≠ mkGuid a2 t2 := by
  intro heq
  have hdata : a1.data ++ '-' :: (fmt14 t1).data =
      a2.data ++ '-' :: (fmt14 t2).data := by
    have h0 := congrArg String.data heq
    simpa [mkGuid, String.data_append] using h0
  have hlen : ('-' :: (fmt14 t1).data).length = ('-' :: (fmt14 t2).data).length := by
    rw [List.length_cons, List.length_cons, fmt14_data_length, fmt14_data_length]
  rcases List.append_inj' hdata hlen with ⟨ha, hf⟩
  rcases h with h | h
  · exact h (string_eq_of_data ha)
  · exact h (string_eq_of_data (List.cons.inj hf).2)

/-- Witness for C2 (amended): same paper, timestamps one day apart. -/
theorem guid_distinct_outside_same_second_witness :
    (fmt14 ⟨2024, 1, 3, 0, 0, 0, 0⟩ ≠ fmt14 ⟨2024, 1, 4, 0, 0, 0, 0⟩) ∧
    mkGuid "2412.14689" ⟨2024, 1, 3, 0, 0, 0, 0⟩ ≠
      mkGuid "2412.14689" ⟨2024, 1, 4, 0, 0, 0, 0⟩ :=
  ⟨by decide,
    guid_distinct_outside_same_second "2412.14689" "2412.14689"
      ⟨2024, 1, 3, 0, 0, 0, 0⟩ ⟨2024, 1, 4, 0, 0, 0, 0⟩ (Or.inr (by decide))⟩

/-- C2 counterexample: two distinct publish instants of the same paper —
half a second apart, hence distinct `datetime.now` values — produce the
SAME guid, because `strftime('%Y%m%d%H%M%S')` truncates to seconds. -/
theorem guid_collision_same_second :
    (⟨2024, 1, 3, 0, 0, 0, 0⟩ : DateTimeU) ≠ ⟨2024, 1, 3, 0, 0, 0, 500000⟩ ∧
    mkGuid "2412.14689" ⟨2024, 1, 3, 0, 0, 0, 0⟩ =
      mkGuid "2412.14689" ⟨2024, 1, 3, 0, 0, 0, 500000⟩ := by
  exact ⟨by decide, by decide⟩

/-- C9: feed rendering is a pure function of the base URL and the kept
records — two calls on identical inputs return byte-identical documents. -/
theorem render_feed_deterministic (b1 b2 : String) (e1 e2 : List Rec)
    (hb : b1 = b2) (he : e1 = e2) : renderFeedXml b1 e1 = renderFeedXml b2 e2 := by
  rw [hb, he]

/-- Witness for C9 on a concrete base and record list. -/
theorem render_feed_deterministic_witness :
    sampleBase = sampleBase ∧
    renderFeedXml sampleBase [recJan2] = renderFeedXml sampleBase [recJan2] :=
  ⟨rfl, render_feed_deterministic sampleBase sampleBase [recJan2] [recJan2] rfl rfl⟩

/-- C1 (amended): a successful publish with positive keepN persists exactly
min(M+1, N) records, sorted descending by the stored `pubdate_iso` STRING
(the key the code sorts by; this coincides with chronological publishedAt
order only for uniformly formatted timestamps — see
`publish_persists_non_chronological_order`), and the feed carries exactly
one item per persisted record in the same order; in the concrete scenario
(catalog dated Jan 1 and Jan 2, new record Jan 3, keepN = 2) the persisted
catalog is [Jan 3, Jan 2] and the Jan 1 record's audio and page keys are
the ones deleted. -/
theorem retention_invariant :
    (∀ (rawBase : String) (catalog : List Rec) (newRec : Rec) (keep : Int),
      0 < keep →
      (publishRun noFail rawBase catalog newRec keep).error = none →
      (publishRun noFail rawBase catalog newRec keep).persisted.length =
          min (catalog.length + 1) keep.toNat ∧
        DescSorted (publishRun noFail rawBase catalog newRec keep).persisted ∧
        ∃ its,
          feedItems (stripBase rawBase)
              (publishRun noFail rawBase catalog newRec keep).persisted =
            some its ∧
          its.length =
            (publishRun noFail rawBase catalog newRec keep).persisted.length ∧
          (publishRun noFail rawBase catalog newRec keep).feed =
            some (feedWrap (stripBase rawBase) (joinNl its))) ∧
    (publishRun noFail sampleBase [recJan1, recJan2] recJan3 2).persisted =
        [recJan3, recJan2] ∧
    (publishRun noFail sampleBase [recJan1, recJan2] recJan3 2).deleted =
        [recJan1.mp3_key, recJan1.episode_page_key] ∧
    (publishRun noFail sampleBase [recJan1, recJan2] recJan3 2).error = none := by
  refine ⟨?_, by decide, by decide, by decide⟩
  intro rawBase catalog newRec keep hk herr
  rcases publishRun_success herr with ⟨its, hfi, heq⟩
  have hkeep0 : (0 : Int) ≤ keep := le_of_lt hk
  have htake : pyTake keep (sortDesc (catalog ++ [newRec])) =
      (sortDesc (catalog ++ [newRec])).take keep.toNat := by
    unfold pyTake
    rw [if_pos hkeep0]
  have hslen : (sortDesc (catalog ++ [newRec])).length = catalog.length + 1 := by
    rw [sortDesc_length, List.length_append, List.length_cons, List.length_nil]
  rw [heq]
  refine ⟨?_, ?_, its, hfi, ?_, rfl⟩
  · show (pyTake keep (sortDesc (catalog ++ [newRec]))).length =
      min (catalog.length + 1) keep.toNat
    rw [htake, List.length_take, hslen, Nat.min_comm]
  · show DescSorted (pyTake keep (sortDesc (catalog ++ [newRec])))
    rw [htake]
    exact List.Pairwise.sublist (List.take_sublist _ _) (sortDesc_sorted _)
  · show its.length = (pyTake keep (sortDesc (catalog ++ [newRec]))).length
    exact feedItems_length hfi

/-- C1 counterexample: a successful publish (keepN = 3, no failures) onto a
catalog mixing a whole-second and a fractional-second timestamp persists
the whole-second record BEFORE the record stamped half a second later,
because the sort compares the `pubdate_iso` strings and `.` is below `Z` —
so the persisted catalog of a successful publish is not always in
descending chronological publishedAt order. -/
theorem publish_persists_non_chronological_order :
    (publishRun noFail sampleBase [recWholeSec, recFracSec] recJan3 3).error =
      none ∧
    (publishRun noFail sampleBase [recWholeSec, recFracSec] recJan3 3).persisted =
      [recJan3, recWholeSec, recFracSec] ∧
    parsePubdate recWholeSec.pubdate_iso = some ⟨2024, 1, 2, 0, 0, 0, 0⟩ ∧
    parsePubdate recFracSec.pubdate_iso = some ⟨2024, 1, 2, 0, 0, 0, 500000⟩ ∧
    chronoVal ⟨2024, 1, 2, 0, 0, 0, 0⟩ <
      chronoVal ⟨2024, 1, 2, 0, 0, 0, 500000⟩ := by
  exact ⟨by decide, by decide, by decide, by decide, by decide⟩

/-- Witness for C1 (amended) at the concrete scenario. -/
theorem retention_invariant_witness :
    0 < (2 : Int) ∧
    (publishRun noFail sampleBase [recJan1, recJan2] recJan3 2).error = none ∧
    (publishRun noFail sampleBase [recJan1, recJan2] recJan3 2).persisted.length =
      min ([recJan1, recJan2].length + 1) (2 : Int).toNat :=
  ⟨by decide, by decide,
    (retention_invariant.1 sampleBase [recJan1, recJan2] recJan3 2 (by decide)
      (by decide)).1⟩

/-- C3 counterexample: keepN = 0 is non-positive, yet the publish raises no
error at all — the partition runs, keeps nothing, evicts every record and
persists an empty catalog, instead of failing with
InvalidConfigurationError before partitioning. -/
theorem keep_zero_not_rejected :
    (publishRun noFail sampleBase [recJan2] recJan3 0).error = none ∧
    (publishRun noFail sampleBase [recJan2] recJan3 0).persisted = [] ∧
    (publishRun noFail sampleBase [recJan2] recJan3 0).deleted =
      [recJan3.mp3_key, recJan3.episode_page_key, recJan2.mp3_key,
        recJan2.episode_page_key] := by
  exact ⟨by decide, by decide, by decide⟩

/-- C3 (amended): keepN is never validated; the partition follows Python
slice semantics for every integer keepN: kept = items[:keepN] and
evicted = items[keepN:] always partition the sorted catalog; for positive
keepN, kept is the first min(keepN, M+1) records; keepN = 0 keeps nothing;
negative keepN keeps all but the last min(|keepN|, M+1) records. -/
theorem partition_slice_semantics (rawBase : String) (catalog : List Rec)
    (newRec : Rec) (keep : Int)
    (hrender : feedItems (stripBase rawBase)
        (pyTake keep (sortDesc (catalog ++ [newRec]))) ≠ none) :
    (publishRun noFail rawBase catalog newRec keep).error = none ∧
    (publishRun noFail rawBase catalog newRec keep).persisted =
      pyTake keep (sortDesc (catalog ++ [newRec])) ∧
    (publishRun noFail rawBase catalog newRec keep).deleted =
      allKeys (pyDrop keep (sortDesc (catalog ++ [newRec]))) ∧
    pyTake keep (sortDesc (catalog ++ [newRec])) ++
        pyDrop keep (sortDesc (catalog ++ [newRec])) =
      sortDesc (catalog ++ [newRec]) ∧
    (0 < keep →
      (publishRun noFail rawBase catalog newRec keep).persisted =
        (sortDesc (catalog ++ [newRec])).take keep.toNat ∧
      (publishRun noFail rawBase catalog newRec keep).persisted.length =
        min keep.toNat (catalog.length + 1)) ∧
    (keep = 0 → (publishRun noFail rawBase catalog newRec keep).persisted = []) ∧
    (keep < 0 →
      (publishRun noFail rawBase catalog newRec keep).persisted =
        (sortDesc (catalog ++ [newRec])).take
          (catalog.length + 1 - min (catalog.length + 1) keep.natAbs)) := by
  cases hfi : feedItems (stripBase rawBase)
      (pyTake keep (sortDesc (catalog ++ [newRec]))) with
  | none => exact absurd hfi hrender
  | some its =>
    have heq := publishRun_noFail_eq hfi
    have hslen : (sortDesc (catalog ++ [newRec])).length = catalog.length + 1 := by
      rw [sortDesc_length, List.length_append, List.length_cons, List.length_nil]
    have hsplit : pyTake keep (sortDesc (catalog ++ [newRec])) ++
        pyDrop keep (sortDesc (catalog ++ [newRec])) =
          sortDesc (catalog ++ [newRec]) := by
      unfold pyTake pyDrop
      by_cases h0 : (0 : Int) ≤ keep
      · rw [if_pos h0, if_pos h0, List.take_append_drop]
      · rw [if_neg h0, if_neg h0, List.take_append_drop]
    rw [heq]
    refine ⟨rfl, rfl, rfl, hsplit, ?_, ?_, ?_⟩
    · intro hpos
      have h0 : (0 : Int) ≤ keep := le_of_lt hpos
      constructor
      · show pyTake keep (sortDesc (catalog ++ [newRec])) = _
        unfold pyTake
        rw [if_pos h0]
      · show (pyTake keep (sortDesc (catalog ++ [newRec]))).length = _
        unfold pyTake
        rw [if_pos h0, List.length_take, hslen]
    · intro h0
      subst h0
      show pyTake 0 (sortDesc (catalog ++ [newRec])) = []
      unfold pyTake
      rw [if_pos (le_refl (0 : Int))]
      simp
    · intro hneg
      have h0 : ¬ (0 : Int) ≤ keep := by omega
      show pyTake keep (sortDesc (catalog ++ [newRec])) = _
      unfold pyTake
      rw [if_neg h0, hslen]

/-- Witness for C3 (amended) at keepN = 2 over a one-record catalog. -/
theorem partition_slice_semantics_witness :
    (feedItems (stripBase sampleBase)
        (pyTake 2 (sortDesc ([recJan1] ++ [recJan3]))) ≠ none) ∧
    (publishRun noFail sampleBase [recJan1] recJan3 2).error = none :=
  ⟨by decide,
    (partition_slice_semantics sampleBase [recJan1] recJan3 2 (by decide)).1⟩

/-- C4 counterexample: with keepN = 1 and the delete of the first evicted
record's audio key failing, the publish aborts with an error, no key at all
is deleted (the failing record's page key and the second evicted record's
two keys are skipped), and the durable catalog stays the full 3-record
sorted list — the truncated catalog is never persisted. -/
theorem delete_failure_aborts :
    (publishRun failBetaMp3 sampleBase [recJan1, recJan2] recJan3 1).error =
      some ("delete_key raised on " ++ recJan2.mp3_key) ∧
    (publishRun failBetaMp3 sampleBase [recJan1, recJan2] recJan3 1).deleted = [] ∧
    (publishRun failBetaMp3 sampleBase [recJan1, recJan2] recJan3 1).persisted =
      [recJan3, recJan2, recJan1] := by
  exact ⟨by decide, by decide, by decide⟩

/-- C4 (amended): `delete_key` has no handler, so a failing delete during
eviction aborts the publish: the run ends in an error, only the keys before
the failure were deleted (a prefix of the evicted keys), and the durable
catalog remains the full sorted list persisted in step 7 — the truncated
form is never written. -/
theorem delete_failure_aborts_amended (fails : String → Bool) (rawBase : String)
    (catalog : List Rec) (newRec : Rec) (keep : Int)
    (hrender : feedItems (stripBase rawBase)
        (pyTake keep (sortDesc (catalog ++ [newRec]))) ≠ none)
    (hfail : ∃ r ∈ pyDrop keep (sortDesc (catalog ++ [newRec])),
        fails r.mp3_key = true ∨ fails r.episode_page_key = true) :
    (publishRun fails rawBase catalog newRec keep).error ≠ none ∧
    (publishRun fails rawBase catalog newRec keep).persisted =
      sortDesc (catalog ++ [newRec]) ∧
    ∃ suf, (publishRun fails rawBase catalog newRec keep).deleted ++ suf =
      allKeys (pyDrop keep (sortDesc (catalog ++ [newRec]))) := by
  cases hfi : feedItems (stripBase rawBase)
      (pyTake keep (sortDesc (catalog ++ [newRec]))) with
  | none => exact absurd hfi hrender
  | some its =>
    have hrf : renderFeedXml rawBase
        (pyTake keep (sortDesc (catalog ++ [newRec]))) =
          some (feedWrap (stripBase rawBase) (joinNl its)) := by
      simp [renderFeedXml, hfi]
    have hsnd := evictList_fails_some fails _ hfail
    cases hev : evictList fails (pyDrop keep (sortDesc (catalog ++ [newRec]))) with
    | mk ds e =>
      cases e with
      | none => rw [hev] at hsnd; simp at hsnd
      | some k =>
        have hout : publishRun fails rawBase catalog newRec keep =
            ⟨sortDesc (catalog ++ [newRec]),
              some (feedWrap (stripBase rawBase) (joinNl its)), ds,
              some ("delete_key raised on " ++ k)⟩ := by
          unfold publishRun
          rw [hrf, hev]
        rw [hout]
        refine ⟨by simp, rfl, ?_⟩
        rcases evictList_prefix fails
            (pyDrop keep (sortDesc (catalog ++ [newRec]))) with ⟨suf, hsuf⟩
        rw [hev] at hsuf
        exact ⟨suf, hsuf⟩

/-- Witness for C4 (amended) at the concrete failing-delete scenario. -/
theorem delete_failure_aborts_amended_witness :
    (feedItems (stripBase sampleBase)
        (pyTake 1 (sortDesc ([recJan1, recJan2] ++ [recJan3]))) ≠ none) ∧
    (∃ r ∈ pyDrop 1 (sortDesc ([recJan1, recJan2] ++ [recJan3])),
        failBetaMp3 r.mp3_key = true ∨ failBetaMp3 r.episode_page_key = true) ∧
    (publishRun failBetaMp3 sampleBase [recJan1, recJan2] recJan3 1).error ≠ none :=
  ⟨by decide, by decide,
    (delete_failure_aborts_amended failBetaMp3 sampleBase [recJan1, recJan2]
      recJan3 1 (by decide) (by decide)).1⟩

/-- C5 counterexample: when an evicted record's title slugs identically to
a kept record's title, the eviction loop deletes key strings equal to the
kept record's audio and page keys — delete IS invoked on a key of a kept
record. -/
theorem evicted_key_equals_kept_key :
    recKeptAB ∈
      (publishRun noFail sampleBase [recKeptAB, recEvictAB] recJan3 2).persisted ∧
    recKeptAB.mp3_key ∈
      (publishRun noFail sampleBase [recKeptAB, recEvictAB] recJan3 2).deleted ∧
    recKeptAB.episode_page_key ∈
      (publishRun noFail sampleBase [recKeptAB, recEvictAB] recJan3 2).deleted ∧
    (publishRun noFail sampleBase [recKeptAB, recEvictAB] recJan3 2).error =
      none := by
  exact ⟨by decide, by decide, by decide, by decide⟩

/-- C5 (amended): when every delete succeeds, the deleted-key sequence is
exactly each evicted record's audio key then page key, in eviction order
(one delete per key slot); and provided no kept record shares a key string
with any evicted record, no kept record's key is ever passed to delete. -/
theorem eviction_completeness (rawBase : String) (catalog : List Rec)
    (newRec : Rec) (keep : Int)
    (herr : (publishRun noFail rawBase catalog newRec keep).error = none) :
    (publishRun noFail rawBase catalog newRec keep).deleted =
      allKeys (pyDrop keep (sortDesc (catalog ++ [newRec]))) ∧
    ((∀ r1, r1 ∈ pyTake keep (sortDesc (catalog ++ [newRec])) →
        ∀ r2, r2 ∈ pyDrop keep (sortDesc (catalog ++ [newRec])) →
          r1.mp3_key ≠ r2.mp3_key ∧ r1.mp3_key ≠ r2.episode_page_key ∧
            r1.episode_page_key ≠ r2.mp3_key ∧
            r1.episode_page_key ≠ r2.episode_page_key) →
      ∀ r, r ∈ (publishRun noFail rawBase catalog newRec keep).persisted →
        r.mp3_key ∉ (publishRun noFail rawBase catalog newRec keep).deleted ∧
        r.episode_page_key ∉
          (publishRun noFail rawBase catalog newRec keep).deleted) := by
  rcases publishRun_success herr with ⟨its, hfi, heq⟩
  have hdel : (publishRun noFail rawBase catalog newRec keep).deleted =
      allKeys (pyDrop keep (sortDesc (catalog ++ [newRec]))) := by
    rw [heq]
    show (evictList noFail (pyDrop keep (sortDesc (catalog ++ [newRec])))).1 = _
    rw [evictList_noFail]
  have hper : (publishRun noFail rawBase catalog newRec keep).persisted =
      pyTake keep (sortDesc (catalog ++ [newRec])) := by
    rw [heq]
  refine ⟨hdel, ?_⟩
  intro hdisj r hr
  rw [hper] at hr
  rw [hdel]
  constructor
  · intro hmem
    rcases mem_allKeys.mp hmem with ⟨r2, hr2, hk⟩
    rcases hk with hk | hk
    · exact (hdisj r hr r2 hr2).1 hk
    · exact (hdisj r hr r2 hr2).2.1 hk
  · intro hmem
    rcases mem_allKeys.mp hmem with ⟨r2, hr2, hk⟩
    rcases hk with hk | hk
    · exact (hdisj r hr r2 hr2).2.2.1 hk
    · exact (hdisj r hr r2 hr2).2.2.2 hk

/-- Witness for C5 (amended) at a collision-free scenario. -/
theorem eviction_completeness_witness :
    (publishRun noFail sampleBase [recJan1, recJan2] recJan3 2).error = none ∧
    (publishRun noFail sampleBase [recJan1, recJan2] recJan3 2).deleted =
      allKeys (pyDrop 2 (sortDesc ([recJan1, recJan2] ++ [recJan3]))) :=
  ⟨by decide,
    (eviction_completeness sampleBase [recJan1, recJan2] recJan3 2 (by decide)).1⟩

/-- C7: ensuring the shared assets is idempotent — after one successful
run both assets exist, so a second run uploads nothing and returns the
same store; a key the store already reports present is never uploaded
(never overwritten); a key reported absent is uploaded exactly once. -/
theorem ensure_shared_assets_idempotent (st : Store) (coverAvail : Bool)
    (st1 : Store) (up1 : List String)
    (h : ensureSharedAssets coverAvail st = .ok (st1, up1)) :
    ensureSharedAssets coverAvail st1 = .ok (st1, []) ∧
    (∀ k, st.has k = true → k ∉ up1) ∧
    (st.has INDEX_KEY = false → up1.count INDEX_KEY = 1) ∧
    (st.has ARTWORK_KEY = false → up1.count ARTWORK_KEY = 1) := by
  have hAI : (ARTWORK_KEY == INDEX_KEY) = false := by decide
  have hIA : (INDEX_KEY == ARTWORK_KEY) = false := by decide
  have hII : (INDEX_KEY == INDEX_KEY) = true := by decide
  have hAA : (ARTWORK_KEY == ARTWORK_KEY) = true := by decide
  cases hi : st.has INDEX_KEY <;> cases ha : st.has ARTWORK_KEY <;>
    cases hcov : coverAvail <;>
      simp only [ensureSharedAssets, ensureIndexHtml, ensureArtwork, putKey,
        hi, ha, hcov, hAI, hII, hAA, Bool.false_or, Bool.true_or, Bool.or_false,
        Bool.or_true, if_true, if_false, Bool.false_eq_true, ite_false, ite_true,
        reduceCtorEq, Except.ok.injEq, Prod.mk.injEq, Except.error.injEq] at h
  case false.false.true =>
    obtain ⟨rfl, rfl⟩ := h
    refine ⟨rfl, ?_, ?_, ?_⟩
    · intro k hk hmem
      simp at hmem
      rcases hmem with rfl | rfl
      · rw [hi] at hk; exact Bool.noConfusion hk
      · rw [ha] at hk; exact Bool.noConfusion hk
    · intro _; decide
    · intro _; decide
  case false.true.false =>
    obtain ⟨rfl, rfl⟩ := h
    have hne : ¬ (ARTWORK_KEY = INDEX_KEY) := by decide
    refine ⟨?_, ?_, ?_, ?_⟩
    · simp [ensureSharedAssets, ensureIndexHtml, ensureArtwork, putKey, ha, hne]
    · intro k hk hmem
      simp only [List.append_nil, List.mem_singleton] at hmem
      subst hmem
      rw [hi] at hk
      exact Bool.noConfusion hk
    · intro _; decide
    · intro hcon; exact Bool.noConfusion hcon
  case false.true.true =>
    obtain ⟨rfl, rfl⟩ := h
    have hne : ¬ (ARTWORK_KEY = INDEX_KEY) := by decide
    refine ⟨?_, ?_, ?_, ?_⟩
    · simp [ensureSharedAssets, ensureIndexHtml, ensureArtwork, putKey, ha, hne]
    · intro k hk hmem
      simp only [List.append_nil, List.mem_singleton] at hmem
      subst hmem
      rw [hi] at hk
      exact Bool.noConfusion hk
    · intro _; decide
    · intro hcon; exact Bool.noConfusion hcon
  case true.false.true =>
    obtain ⟨rfl, rfl⟩ := h
    have hne : ¬ (INDEX_KEY = ARTWORK_KEY) := by decide
    refine ⟨?_, ?_, ?_, ?_⟩
    · simp [ensureSharedAssets, ensureIndexHtml, ensureArtwork, putKey, hi, hne]
    · intro k hk hmem
      simp only [List.nil_append, List.mem_singleton] at hmem
      subst hmem
      rw [ha] at hk
      exact Bool.noConfusion hk
    · intro hcon; exact Bool.noConfusion hcon
    · intro _; decide
  case true.true.false =>
    obtain ⟨rfl, rfl⟩ := h
    refine ⟨?_, ?_, ?_, ?_⟩
    · simp [ensureSharedAssets, ensureIndexHtml, ensureArtwork, hi, ha]
    · intro k _ hmem
      simp at hmem
    · intro hcon; exact Bool.noConfusion hcon
    · intro hcon; exact Bool.noConfusion hcon
  case true.true.true =>
    obtain ⟨rfl, rfl⟩ := h
    refine ⟨?_, ?_, ?_, ?_⟩
    · simp [ensureSharedAssets, ensureIndexHtml, ensureArtwork, hi, ha]
    · intro k _ hmem
      simp at hmem
    · intro hcon; exact Bool.noConfusion hcon
    · intro hcon; exact Bool.noConfusion hcon

/-- Witness for C7: starting from an empty store with a local cover, the
first run uploads both assets and a second run is a no-op. -/
theorem ensure_shared_assets_idempotent_witness :
    ensureSharedAssets true emptyStore =
      .ok (putKey ARTWORK_KEY (putKey INDEX_KEY emptyStore),
        [INDEX_KEY, ARTWORK_KEY]) ∧
    ensureSharedAssets true (putKey ARTWORK_KEY (putKey INDEX_KEY emptyStore)) =
      .ok (putKey ARTWORK_KEY (putKey INDEX_KEY emptyStore), []) :=
  ⟨rfl,
    (ensure_shared_assets_idempotent emptyStore true
      (putKey ARTWORK_KEY (putKey INDEX_KEY emptyStore))
      [INDEX_KEY, ARTWORK_KEY] rfl).1⟩

/-- C10: storage keys are functions of the title's slug alone — equal slugs
give equal audio and page keys — so in a publish where an evicted record's
distinct title slugs identically to a kept record's, the eviction deletes
key strings equal to the kept record's keys while the persisted catalog
still lists that record. -/
theorem keys_derive_from_slug_only :
    (∀ t1 t2 : String, slugify t1 = slugify t2 →
        mkMp3Key t1 = mkMp3Key t2 ∧ mkPageKey t1 = mkPageKey t2) ∧
    slugify recKeptAB.title = slugify recEvictAB.title ∧
    recKeptAB.title ≠ recEvictAB.title ∧
    recEvictAB.mp3_key = recKeptAB.mp3_key ∧
    recEvictAB.episode_page_key = recKeptAB.episode_page_key ∧
    recKeptAB ∈
      (publishRun noFail sampleBase [recKeptAB, recEvictAB] recJan3 2).persisted ∧
    recKeptAB.mp3_key ∈
      (publishRun noFail sampleBase [recKeptAB, recEvictAB] recJan3 2).deleted ∧
    recKeptAB.episode_page_key ∈
      (publishRun noFail sampleBase [recKeptAB, recEvictAB] recJan3 2).deleted := by
  refine ⟨?_, by decide, by decide, by decide, by decide, by decide, by decide,
    by decide⟩
  intro t1 t2 h
  constructor
  · show "podcasts/" ++ slugify t1 ++ ".mp3" = "podcasts/" ++ slugify t2 ++ ".mp3"
    rw [h]
  · show "episodes/" ++ slugify t1 ++ ".html" = "episodes/" ++ slugify t2 ++ ".html"
    rw [h]

/-- Witness for C10 on the colliding titles "A B" and "a b". -/
theorem keys_derive_from_slug_only_witness :
    slugify "A B" = slugify "a b" ∧ mkMp3Key "A B" = mkMp3Key "a b" :=
  ⟨by decide, (keys_derive_from_slug_only.1 "A B" "a b" (by decide)).1⟩

end Podcast
